import Mathlib

/-!
# ArtisanMarket — order lifecycle verification

A shallow embedding of the cart / order / stock logic of the ArtisanMarket
repository (`src/services/cart_service.py`, `src/services/order_service.py`,
`src/db/postgres_client.py`, `src/db/redis_client.py`, `src/db/neo4j_client.py`),
together with theorems settling the specification claims about it.

Modelling conventions:
* PostgreSQL state, the Redis cart store and the Neo4j purchase graph are the
  three fields of one `AppState`; a `get_cursor` block is one transaction on
  the `pg` field (commit on normal exit, full rollback of `pg` on exception).
* Redis hashes and the per-key TTLs are association lists keyed by the user id
  (the literal redis key is `"cart:" ++ user_id`; the prefix is injective so
  the user id itself is used as key).
* Monetary values are exact rationals (`ℚ`); the SQL `FLOAT` column type of
  the schema is recorded separately in the schema model.
* Backing-store failures are modelled by a `Faults` record: a flag per
  primitive store call; a set flag makes that call raise.  Raising is
  represented by `Except.error ()`.  Python functions whose body is wrapped in
  `try/except` translate to definitions in which every fault branch returns
  the handler's value; functions without a handler (`get_cart`,
  `get_cart_total`) have `Except`-valued results that can actually be `error`.
* Timestamp columns (`order_date`) are not modelled; no claim concerns them.
  The purchase-graph `date` string is passed as an explicit `today` argument.
-/

namespace ArtisanMarket

/-- `src/config.py`: `CART_TTL: int = 86400  # 24 hours`. -/
def CART_TTL : Int := 86400

/-- A row of the `products` table (`postgres_client.create_tables`):
`id VARCHAR PRIMARY KEY, name, price FLOAT, stock INT` (category, seller,
description, tags omitted: no claim concerns them). -/
structure Product where
  id : String
  name : String
  price : ℚ
  stock : Int
deriving Repr, DecidableEq

/-- A row of the `orders` table: `id SERIAL PRIMARY KEY, user_id,
total_amount FLOAT, status VARCHAR DEFAULT 'pending'` (`order_date` omitted). -/
structure Order where
  id : Nat
  user_id : String
  total_amount : ℚ
  status : String
deriving Repr, DecidableEq

/-- A row of the `order_items` table: `order_id, product_id, quantity,
unit_price FLOAT, total_price FLOAT` (its own serial `id` omitted). -/
structure OrderItem where
  order_id : Nat
  product_id : String
  quantity : Int
  unit_price : ℚ
  total_price : ℚ
deriving Repr, DecidableEq

/-- The PostgreSQL database state; `next_order_id` models the `SERIAL`
sequence behind `orders.id`. -/
structure PgState where
  products : List Product
  orders : List Order
  order_items : List OrderItem
  next_order_id : Nat
deriving Repr, DecidableEq

/-- A `PURCHASED` relationship in Neo4j (`neo4j_client.add_purchase`): the
Cypher `MERGE (u)-[r:PURCHASED {date: $date}]->(p)` keys the relationship on
(user, product, date) and accumulates `quantity` on match. -/
structure PurchaseEdge where
  user_id : String
  product_id : String
  quantity : Int
  date : String
deriving Repr, DecidableEq

/-- The combined state of the three stores.  `carts` maps a user id to the
redis hash behind key `cart:<user>`; `ttls` maps a user id to the remaining
TTL of that key.  A key absent from `carts` does not exist in redis. -/
structure AppState where
  pg : PgState
  carts : List (String × List (String × Int))
  ttls : List (String × Int)
  graph : List PurchaseEdge
deriving Repr, DecidableEq

/-! ## Association-list primitives -/

/-- First-match lookup in an association list. -/
def lookupA {β : Type} (k : String) : List (String × β) → Option β
  | [] => none
  | (k2, v) :: rest => if k2 = k then some v else lookupA k rest

/-- Overwrite the first binding of `k` (append if absent). -/
def setA {β : Type} (k : String) (v : β) : List (String × β) → List (String × β)
  | [] => [(k, v)]
  | (k2, v2) :: rest => if k2 = k then (k, v) :: rest else (k2, v2) :: setA k v rest

/-- Remove every binding of `k`. -/
def removeA {β : Type} (k : String) : List (String × β) → List (String × β)
  | [] => []
  | (k2, v2) :: rest => if k2 = k then removeA k rest else (k2, v2) :: removeA k rest

/-- `HINCRBY` on a single hash: increment the field (creating it at `q`). -/
def hsetIncr (pid : String) (q : Int) : List (String × Int) → List (String × Int)
  | [] => [(pid, q)]
  | (k, v) :: rest => if k = pid then (k, v + q) :: rest else (k, v) :: hsetIncr pid q rest

/-! ## Redis primitives (`redis_client.client` calls made by `CartService`) -/

/-- `HGETALL cart:<uid>` as seen through `CartService.get_cart`'s int
conversion: the hash contents, `[]` when the key does not exist. -/
def cartOf (s : AppState) (uid : String) : List (String × Int) :=
  (lookupA uid s.carts).getD []

/-- `HINCRBY cart:<uid> pid q`: creates the key and/or the field as needed. -/
def redisHIncrBy (uid pid : String) (q : Int) (s : AppState) : AppState :=
  { s with carts := setA uid (hsetIncr pid q (cartOf s uid)) s.carts }

/-- `HSET cart:<uid> pid q`. -/
def redisHSet (uid pid : String) (q : Int) (s : AppState) : AppState :=
  { s with carts := setA uid (setA pid q (cartOf s uid)) s.carts }

/-- `EXPIRE cart:<uid> t`: sets the TTL when the key exists, else a no-op. -/
def redisExpire (uid : String) (t : Int) (s : AppState) : AppState :=
  match lookupA uid s.carts with
  | none => s
  | some _ => { s with ttls := setA uid t s.ttls }

/-- `HDEL cart:<uid> pid`: removes the field; a redis hash that loses its last
field ceases to exist (its TTL disappears with it). -/
def redisHDel (uid pid : String) (s : AppState) : AppState :=
  match lookupA uid s.carts with
  | none => s
  | some cart =>
    if removeA pid cart = [] then
      { s with carts := removeA uid s.carts, ttls := removeA uid s.ttls }
    else { s with carts := setA uid (removeA pid cart) s.carts }

/-- `DEL cart:<uid>`. -/
def redisDelete (uid : String) (s : AppState) : AppState :=
  { s with carts := removeA uid s.carts, ttls := removeA uid s.ttls }

/-- `TTL cart:<uid>`: `-2` when the key does not exist, `-1` when it exists
without an expiry, otherwise the remaining seconds. -/
def redisTtlVal (s : AppState) (uid : String) : Int :=
  match lookupA uid s.carts with
  | none => -2
  | some _ =>
    match lookupA uid s.ttls with
    | none => -1
    | some t => t

/-! ## PostgreSQL primitives -/

/-- `SELECT ... FROM products WHERE id = pid` with `fetchone`. -/
def findProduct (pg : PgState) (pid : String) : Option Product :=
  pg.products.find? (fun p => p.id == pid)

/-- `UPDATE products SET stock = stock - q WHERE id = pid` — unconditional,
exactly as issued by `_create_order` / `OrderService.create_order`. -/
def decStock (pid : String) (q : Int) (pg : PgState) : PgState :=
  { pg with products :=
      pg.products.map (fun p => if p.id == pid then { p with stock := p.stock - q } else p) }

/-- `UPDATE products SET stock = stock + q WHERE id = pid` (cancellation). -/
def incStock (pid : String) (q : Int) (pg : PgState) : PgState :=
  { pg with products :=
      pg.products.map (fun p => if p.id == pid then { p with stock := p.stock + q } else p) }

/-- `INSERT INTO orders (user_id, total_amount, status) VALUES (uid, total,
'pending') RETURNING id`: the returned id is the next serial value. -/
def insertOrder (uid : String) (total : ℚ) (pg : PgState) : PgState :=
  { pg with orders := pg.orders ++ [⟨pg.next_order_id, uid, total, "pending"⟩],
            next_order_id := pg.next_order_id + 1 }

/-- `INSERT INTO order_items (order_id, product_id, quantity, unit_price,
total_price)` for one cart item (`unit_price` = item price, `total_price` =
item total, as passed by the services). -/
structure CartItem where
  product_id : String
  name : String
  price : ℚ
  quantity : Int
  total : ℚ
deriving Repr, DecidableEq

def insertOrderItem (oid : Nat) (it : CartItem) (pg : PgState) : PgState :=
  { pg with order_items := pg.order_items ++ [⟨oid, it.product_id, it.quantity, it.price, it.total⟩] }

/-- `UPDATE orders SET status = st WHERE id = oid`. -/
def setOrderStatus (oid : Nat) (st : String) (pg : PgState) : PgState :=
  { pg with orders := pg.orders.map (fun o => if o.id == oid then { o with status := st } else o) }

/-! ## Read-only observers used in theorem statements -/

def pstockOf (pg : PgState) (pid : String) : Option Int :=
  (findProduct pg pid).map Product.stock

def stockOf (s : AppState) (pid : String) : Option Int :=
  (findProduct s.pg pid).map Product.stock

/-- Total quantity the given order lines carry for one product: what a full
restore adds back to that product's stock. -/
def restoreQty (items : List OrderItem) (pid : String) : Int :=
  ((items.filter (fun it => it.product_id == pid)).map OrderItem.quantity).sum

/-- The condition `cancel_order` tests: an order with this id belongs to the
user and is in a cancellable status. -/
def cancellable (s : AppState) (oid : Nat) (uid : String) : Prop :=
  ∃ o ∈ s.pg.orders,
    o.id = oid ∧ o.user_id = uid ∧ (o.status = "pending" ∨ o.status = "processing")

/-- The `SERIAL` well-formedness of the order tables: every existing order id
(and order-line owner) is below the sequence's next value. -/
def serialOk (pg : PgState) : Prop :=
  (∀ o ∈ pg.orders, o.id < pg.next_order_id)
  ∧ (∀ it ∈ pg.order_items, it.order_id < pg.next_order_id)

def orderStatus (s : AppState) (oid : Nat) : Option String :=
  (s.pg.orders.find? (fun o => o.id == oid)).map Order.status

def orderTotal (s : AppState) (oid : Nat) : Option ℚ :=
  (s.pg.orders.find? (fun o => o.id == oid)).map Order.total_amount

def itemsOf (s : AppState) (oid : Nat) : List OrderItem :=
  s.pg.order_items.filter (fun it => it.order_id == oid)

def lineSum (s : AppState) (oid : Nat) : ℚ :=
  ((itemsOf s oid).map OrderItem.total_price).sum

def cartQty (s : AppState) (uid pid : String) : Int :=
  (lookupA pid (cartOf s uid)).getD 0

/-! ## Neo4j primitive -/

/-- `neo4j_client.add_purchase`: `MERGE (u)-[r:PURCHASED {date}]->(p)` with
`ON CREATE SET r.quantity = q` / `ON MATCH SET r.quantity = r.quantity + q`.
User and product nodes are assumed present (graph node sets are not
modelled). -/
def addPurchase (uid pid : String) (q : Int) (date : String) :
    List PurchaseEdge → List PurchaseEdge
  | [] => [⟨uid, pid, q, date⟩]
  | e :: rest =>
    if e.user_id = uid ∧ e.product_id = pid ∧ e.date = date then
      { e with quantity := e.quantity + q } :: rest
    else e :: addPurchase uid pid q date rest

/-! ## Fault model

One flag per primitive store call; a set flag makes that call raise.  The
flags for the calls issued inside per-item loops are indexed by the item's
position, so a failure can be injected at any point of the loop. -/

structure Faults where
  redisHGetAllF : Bool := false
  redisHIncrByF : Bool := false
  redisExpireF : Bool := false
  redisHDelF : Bool := false
  redisHSetF : Bool := false
  redisDeleteF : Bool := false
  redisTtlF : Bool := false
  pgSelectProductF : Bool := false
  pgSelectProductsF : Bool := false
  pgInsertOrderF : Bool := false
  pgInsertItemF : Nat → Bool := fun _ => false
  pgUpdateStockF : Nat → Bool := fun _ => false
  pgSelectOrderF : Bool := false
  pgSelectItemsF : Bool := false
  pgUpdateStatusF : Bool := false
  pgRestoreStockF : Nat → Bool := fun _ => false
  neo4jAddPurchaseF : Nat → Bool := fun _ => false

def noFaults : Faults := {}

/-- Every primitive call fails. -/
def allFaults : Faults where
  redisHGetAllF := true
  redisHIncrByF := true
  redisExpireF := true
  redisHDelF := true
  redisHSetF := true
  redisDeleteF := true
  redisTtlF := true
  pgSelectProductF := true
  pgSelectProductsF := true
  pgInsertOrderF := true
  pgInsertItemF := fun _ => true
  pgUpdateStockF := fun _ => true
  pgSelectOrderF := true
  pgSelectItemsF := true
  pgUpdateStatusF := true
  pgRestoreStockF := fun _ => true
  neo4jAddPurchaseF := fun _ => true

/-! ## CartService (`src/services/cart_service.py`) -/

/-- `CartService._verify_product`: select the product, return
`result["stock"] >= quantity`; `False` when the row is missing; its own
`try/except` turns any store failure into `False`.  Read-only. -/
def _verify_product (f : Faults) (product_id : String) (quantity : Int) (s : AppState) : Bool :=
  if f.pgSelectProductF then false
  else
    match findProduct s.pg product_id with
    | none => false
    | some p => quantity ≤ p.stock

/-- `CartService.get_cart`: `HGETALL` with int conversion.  No `try/except`
of its own, so a redis failure propagates to the caller. -/
def get_cart (f : Faults) (user_id : String) (s : AppState) :
    Except Unit (List (String × Int) × AppState) :=
  if f.redisHGetAllF then .error () else .ok (cartOf s user_id, s)

/-- `CartService.add_to_cart`: verify product and stock, `HINCRBY`, `EXPIRE`;
the surrounding `try/except` returns `False` on any store failure (a failure
of `EXPIRE` still leaves the increment in place — redis is not
transactional). -/
def add_to_cart (f : Faults) (user_id product_id : String) (quantity : Int) (s : AppState) :
    Except Unit (Bool × AppState) :=
  if ¬ _verify_product f product_id quantity s then .ok (false, s)
  else if f.redisHIncrByF then .ok (false, s)
  else
    let s1 := redisHIncrBy user_id product_id quantity s
    if f.redisExpireF then .ok (false, s1)
    else .ok (true, redisExpire user_id CART_TTL s1)

/-- `CartService.remove_from_cart`: `HDEL`; `try/except` returns `False` on
failure.  Note: no `EXPIRE` call — the TTL is not refreshed. -/
def remove_from_cart (f : Faults) (user_id product_id : String) (s : AppState) :
    Except Unit (Bool × AppState) :=
  if f.redisHDelF then .ok (false, s)
  else .ok (true, redisHDel user_id product_id s)

/-- `CartService.update_cart_item`: `quantity <= 0` delegates to
`remove_from_cart`; otherwise verify product and stock, `HSET`, `EXPIRE`;
`try/except` returns `False` on failure. -/
def update_cart_item (f : Faults) (user_id product_id : String) (quantity : Int) (s : AppState) :
    Except Unit (Bool × AppState) :=
  if quantity ≤ 0 then remove_from_cart f user_id product_id s
  else if ¬ _verify_product f product_id quantity s then .ok (false, s)
  else if f.redisHSetF then .ok (false, s)
  else
    let s1 := redisHSet user_id product_id quantity s
    if f.redisExpireF then .ok (false, s1)
    else .ok (true, redisExpire user_id CART_TTL s1)

/-- `CartService.clear_cart`: `DEL`; `try/except` returns `False` on failure. -/
def clear_cart (f : Faults) (user_id : String) (s : AppState) :
    Except Unit (Bool × AppState) :=
  if f.redisDeleteF then .ok (false, s)
  else .ok (true, redisDelete user_id s)

/-- `CartService._get_products_by_ids`: `SELECT id, name, price FROM products
WHERE id IN (...)`; `{}` for an empty id list; its own `try/except` returns
`{}` on failure.  Read-only. -/
def _get_products_by_ids (f : Faults) (product_ids : List String) (s : AppState) : List Product :=
  if product_ids = [] then []
  else if f.pgSelectProductsF then []
  else s.pg.products.filter (fun p => product_ids.contains p.id)

/-- The `{"total": ..., "items": ...}` dictionary built by `get_cart_total`. -/
structure CartTotal where
  total : ℚ
  items : List CartItem
deriving Repr, DecidableEq

/-- `CartService.get_cart_total`: join the cart against the catalog; products
missing from the catalog are silently dropped; `item_total = price * qty` and
the total is the sum of the item totals.  No `try/except` of its own:
`get_cart`'s failure propagates.  Read-only. -/
def get_cart_total (f : Faults) (user_id : String) (s : AppState) :
    Except Unit (CartTotal × AppState) :=
  match get_cart f user_id s with
  | .error e => .error e
  | .ok (cart, s1) =>
    if cart = [] then .ok (⟨0, []⟩, s1)
    else
      let products := _get_products_by_ids f (cart.map Prod.fst) s1
      let items := cart.filterMap (fun pq =>
        match products.find? (fun p => p.id == pq.1) with
        | none => none
        | some p => some ⟨pq.1, p.name, p.price, pq.2, p.price * (pq.2 : ℚ)⟩)
      .ok (⟨(items.map CartItem.total).sum, items⟩, s1)

/-- The per-item body of `_create_order` / `OrderService.create_order`'s first
loop: insert the order line, then unconditionally decrement stock.  An error
aborts the transaction. -/
def createOrderLoop (f : Faults) (oid : Nat) :
    List (Nat × CartItem) → PgState → Except Unit PgState
  | [], pg => .ok pg
  | (i, it) :: rest, pg =>
    if f.pgInsertItemF i then .error ()
    else
      let pg1 := insertOrderItem oid it pg
      if f.pgUpdateStockF i then .error ()
      else createOrderLoop f oid rest (decStock it.product_id it.quantity pg1)

/-- `CartService._create_order`: one `get_cursor` transaction inserting the
header, then per item the order line and the unconditional stock decrement;
any failure rolls the whole transaction back and the `try/except` returns
`None`.  There is no stock-sufficiency check anywhere in it. -/
def _create_order (f : Faults) (user_id : String) (ct : CartTotal) (s : AppState) :
    Option Nat × AppState :=
  if f.pgInsertOrderF then (none, s)
  else
    let oid := s.pg.next_order_id
    let pg1 := insertOrder user_id ct.total s.pg
    match createOrderLoop f oid ct.items.enum pg1 with
    | .error _ => (none, s)
    | .ok pg2 => (some oid, { s with pg := pg2 })

/-- `CartService.convert_cart_to_order`: cart total, `None` on an empty item
list, `_create_order`, then `clear_cart` (which swallows its own failures);
the outer `try/except` returns `None` on any escaped failure. -/
def convert_cart_to_order (f : Faults) (user_id : String) (s : AppState) :
    Except Unit (Option Nat × AppState) :=
  match get_cart_total f user_id s with
  | .error _ => .ok (none, s)
  | .ok (ct, s1) =>
    if ct.items = [] then .ok (none, s1)
    else
      match _create_order f user_id ct s1 with
      | (some oid, s2) =>
        match clear_cart f user_id s2 with
        | .ok (_, s3) => .ok (some oid, s3)
        | .error _ => .ok (some oid, s2)
      | (none, s2) => .ok (none, s2)

/-- `CartService.get_cart_expiry`: `TTL`, returned when positive, else `None`;
`try/except` returns `None` on failure. -/
def get_cart_expiry (f : Faults) (user_id : String) (s : AppState) :
    Except Unit (Option Int × AppState) :=
  if f.redisTtlF then .ok (none, s)
  else
    let t := redisTtlVal s user_id
    .ok (if 0 < t then some t else none, s)

/-! ## OrderService (`src/services/order_service.py`) -/

/-- The Neo4j loop of `OrderService.create_order`; each `add_purchase` call is
its own Neo4j session, so edges written before a failing call persist: an
error carries the graph as mutated so far. -/
def neo4jLoop (f : Faults) (uid : String) (today : String) :
    List (Nat × CartItem) → List PurchaseEdge → Except (List PurchaseEdge) (List PurchaseEdge)
  | [], g => .ok g
  | (i, it) :: rest, g =>
    if f.neo4jAddPurchaseF i then .error g
    else neo4jLoop f uid today rest (addPurchase uid it.product_id it.quantity today g)

/-- `OrderService.create_order`: inside one `get_cursor` transaction, insert
the header, per item the order line and the unconditional stock decrement,
then — still inside the transaction — the Neo4j purchase writes.  A failure
anywhere (including a Neo4j failure) rolls the PostgreSQL transaction back,
keeps any Neo4j edges already written, and the `try/except` returns `None`. -/
def OrderService.create_order (f : Faults) (today user_id : String)
    (items : List CartItem) (total_amount : ℚ) (s : AppState) : Option Nat × AppState :=
  if f.pgInsertOrderF then (none, s)
  else
    let oid := s.pg.next_order_id
    let pg1 := insertOrder user_id total_amount s.pg
    match createOrderLoop f oid items.enum pg1 with
    | .error _ => (none, s)
    | .ok pg2 =>
      match neo4jLoop f user_id today items.enum s.graph with
      | .error g2 => (none, { s with graph := g2 })
      | .ok g2 => (some oid, { s with pg := pg2, graph := g2 })

/-- `OrderService.update_order_status`: `UPDATE orders SET status = %s WHERE
id = %s`, returning `rowcount > 0`.  No state-machine validation of any kind;
`try/except` returns `False` on store failure. -/
def update_order_status (f : Faults) (order_id : Nat) (status : String) (s : AppState) :
    Bool × AppState :=
  if f.pgUpdateStatusF then (false, s)
  else
    (s.pg.orders.any (fun o => o.id == order_id),
     { s with pg := setOrderStatus order_id status s.pg })

/-- The stock-restore loop of `cancel_order`. -/
def restoreLoop (f : Faults) : List (Nat × OrderItem) → PgState → Except Unit PgState
  | [], pg => .ok pg
  | (i, it) :: rest, pg =>
    if f.pgRestoreStockF i then .error ()
    else restoreLoop f rest (incStock it.product_id it.quantity pg)

/-- `OrderService.cancel_order`: in one `get_cursor` transaction, select the
order by id and user, require status in `{pending, processing}`, restore
stock per item, set status to `'cancelled'`; any store failure rolls back and
returns `False`. -/
def cancel_order (f : Faults) (order_id : Nat) (user_id : String) (s : AppState) :
    Bool × AppState :=
  if f.pgSelectOrderF then (false, s)
  else
    match s.pg.orders.find? (fun o => o.id == order_id && o.user_id == user_id) with
    | none => (false, s)
    | some o =>
      if ¬ (o.status = "pending" ∨ o.status = "processing") then (false, s)
      else if f.pgSelectItemsF then (false, s)
      else
        match restoreLoop f (itemsOf s order_id).enum s.pg with
        | .error _ => (false, s)
        | .ok pg1 =>
          if f.pgUpdateStatusF then (false, s)
          else (true, { s with pg := setOrderStatus order_id "cancelled" pg1 })

/-! ## SQL schema model (`postgres_client.create_tables`) -/

inductive SqlType
  | varchar | text | floatT | intT | serial | date | timestamp | vector
deriving Repr, DecidableEq

/-- Column types of the `orders` table as declared in `create_tables`. -/
def orders_schema : List (String × SqlType) :=
  [("id", .serial), ("user_id", .varchar), ("order_date", .timestamp),
   ("total_amount", .floatT), ("status", .varchar)]

/-- Column types of the `order_items` table. -/
def order_items_schema : List (String × SqlType) :=
  [("id", .serial), ("order_id", .intT), ("product_id", .varchar),
   ("quantity", .intT), ("unit_price", .floatT), ("total_price", .floatT)]

/-- Column types of the `products` table. -/
def products_schema : List (String × SqlType) :=
  [("id", .varchar), ("name", .varchar), ("category_id", .varchar),
   ("price", .floatT), ("seller_id", .varchar), ("description", .text),
   ("tags", .text), ("stock", .intT)]

/-! ## Helpers for concrete scenarios -/

/-- The state after an `Except`-valued service call (the default is returned
when the call raised, which never happens in the fault-free runs below). -/
def stepState {α : Type} (r : Except Unit (α × AppState)) (dflt : AppState) : AppState :=
  match r with
  | .ok (_, s) => s
  | .error _ => dflt

/-- Did the call return normally (as opposed to raising to its caller)? -/
def isOkB {α : Type} : Except Unit α → Bool
  | .ok _ => true
  | .error _ => false

instance instDecidableEqExcept {ε α : Type} [DecidableEq ε] [DecidableEq α] :
    DecidableEq (Except ε α) := fun a b =>
  match a, b with
  | .error e1, .error e2 =>
    if h : e1 = e2 then isTrue (by rw [h]) else isFalse (fun hh => h (Except.error.inj hh))
  | .error _, .ok _ => isFalse (fun hh => Except.noConfusion hh)
  | .ok _, .error _ => isFalse (fun hh => Except.noConfusion hh)
  | .ok a1, .ok a2 =>
    if h : a1 = a2 then isTrue (by rw [h]) else isFalse (fun hh => h (Except.ok.inj hh))

/-! ## Concrete scenario states -/

/-- C1 scenario: one product with stock 5, empty stores. -/
def sC1 : AppState := ⟨⟨[⟨"P1", "Pot", 10, 5⟩], [], [], 1⟩, [], [], []⟩

def sC1a : AppState := stepState (add_to_cart noFaults "u1" "P1" 3 sC1) sC1

def sC1b : AppState := stepState (add_to_cart noFaults "u1" "P1" 3 sC1a) sC1a

def sC1c : AppState := stepState (convert_cart_to_order noFaults "u1" sC1b) sC1b

/-- C2 scenario: stock 5, cart already holding quantity 6 of the product. -/
def sC2 : AppState :=
  ⟨⟨[⟨"P1", "Pot", 10, 5⟩], [], [], 1⟩, [("u1", [("P1", 6)])], [("u1", 86400)], []⟩

def sC2after : AppState := stepState (convert_cart_to_order noFaults "u1" sC2) sC2

/-- C3 scenario: stock 5, an order of one unit, with the graph sink down. -/
def sC3 : AppState := ⟨⟨[⟨"P1", "Pot", 10, 5⟩], [], [], 1⟩, [], [], []⟩

def itemsC3 : List CartItem := [⟨"P1", "Pot", 10, 1, 10⟩]

def fGraphDown : Faults := { noFaults with neo4jAddPurchaseF := fun _ => true }

/-- C5 scenario: one order already in the terminal status `completed`. -/
def sC5 : AppState := ⟨⟨[], [⟨1, "u1", 10, "completed"⟩], [], 2⟩, [], [], []⟩

/-- C6 scenario: the product exists but its stock is 0. -/
def sC6 : AppState := ⟨⟨[⟨"P1", "Pot", 10, 0⟩], [], [], 1⟩, [], [], []⟩

/-- C7 scenario: stock 2, an order of three units placed directly through
`OrderService.create_order`. -/
def sC7 : AppState := ⟨⟨[⟨"P2", "Vase", 15, 2⟩], [], [], 1⟩, [], [], []⟩

def itemsC7 : List CartItem := [⟨"P2", "Vase", 15, 3, 45⟩]

def sC7after : AppState :=
  (OrderService.create_order noFaults "2026-01-01" "u2" itemsC7 45 sC7).2

/-- C8 scenario: a two-item cart whose TTL has decayed to 100 seconds. -/
def sC8 : AppState :=
  ⟨⟨[⟨"P1", "Pot", 10, 9⟩, ⟨"P2", "Vase", 15, 9⟩], [], [], 1⟩,
   [("u1", [("P1", 2), ("P2", 1)])], [("u1", 100)], []⟩

def sC8after : AppState := stepState (remove_from_cart noFaults "u1" "P1" sC8) sC8

/-- C9 scenario: the product exists with stock 0 and the cart is empty. -/
def sC9 : AppState := ⟨⟨[⟨"P9", "Bowl", 8, 0⟩], [], [], 1⟩, [], [], []⟩

/-- C4 witness scenario: a pending order of two units owned by `u1`. -/
def sW4 : AppState :=
  ⟨⟨[⟨"P1", "Pot", 10, 3⟩], [⟨1, "u1", 20, "pending"⟩], [⟨1, "P1", 2, 10, 20⟩], 2⟩, [], [], []⟩

/-- C7 witness scenario: a two-unit cart over a catalog product. -/
def sW7 : AppState :=
  ⟨⟨[⟨"P1", "Pot", 10, 5⟩], [], [], 1⟩, [("u7", [("P1", 2)])], [("u7", 86400)], []⟩

def sW7after : AppState := stepState (convert_cart_to_order noFaults "u7" sW7) sW7

/-! ## Claim theorems

`Rat.mul` and `Rat.add` are `@[irreducible]` in the library; concrete
evaluation by `decide` needs them reducible (the kernel ignores reducibility,
so proofs are unaffected). -/

section ClaimTheorems

attribute [local semireducible] Rat.mul Rat.add

/-! ### Association-list lemmas -/

theorem lookupA_setA_self {β : Type} (k : String) (v : β) (l : List (String × β)) :
    lookupA k (setA k v l) = some v := by
  induction l with
  | nil => simp [setA, lookupA]
  | cons hd t ih =>
    obtain ⟨k2, v2⟩ := hd
    by_cases hk : k2 = k
    · simp [setA, hk, lookupA]
    · simp [setA, hk, lookupA, ih]

theorem lookupA_setA_ne {β : Type} {k k2 : String} (v : β) (l : List (String × β))
    (h : k2 ≠ k) : lookupA k2 (setA k v l) = lookupA k2 l := by
  have h2 : ¬ k = k2 := fun he => h he.symm
  induction l with
  | nil => simp [setA, lookupA, h2]
  | cons hd t ih =>
    obtain ⟨k3, v3⟩ := hd
    by_cases hk : k3 = k
    · subst hk
      simp [setA, lookupA, h2]
    · simp [setA, hk, lookupA, ih]

theorem lookupA_hsetIncr_self (p : String) (q : Int) (c : List (String × Int)) :
    lookupA p (hsetIncr p q c) = some ((lookupA p c).getD 0 + q) := by
  induction c with
  | nil => simp [hsetIncr, lookupA]
  | cons hd t ih =>
    obtain ⟨k, v⟩ := hd
    by_cases hk : k = p
    · simp [hsetIncr, hk, lookupA]
    · simp [hsetIncr, hk, lookupA, ih]

/-! ### Fault-flag reductions for the fault-free configuration -/

@[simp] theorem noFaults_redisHGetAllF : noFaults.redisHGetAllF = false := rfl
@[simp] theorem noFaults_redisHIncrByF : noFaults.redisHIncrByF = false := rfl
@[simp] theorem noFaults_redisExpireF : noFaults.redisExpireF = false := rfl
@[simp] theorem noFaults_redisHDelF : noFaults.redisHDelF = false := rfl
@[simp] theorem noFaults_redisHSetF : noFaults.redisHSetF = false := rfl
@[simp] theorem noFaults_redisDeleteF : noFaults.redisDeleteF = false := rfl
@[simp] theorem noFaults_redisTtlF : noFaults.redisTtlF = false := rfl
@[simp] theorem noFaults_pgSelectProductF : noFaults.pgSelectProductF = false := rfl
@[simp] theorem noFaults_pgSelectProductsF : noFaults.pgSelectProductsF = false := rfl
@[simp] theorem noFaults_pgInsertOrderF : noFaults.pgInsertOrderF = false := rfl
@[simp] theorem noFaults_pgSelectOrderF : noFaults.pgSelectOrderF = false := rfl
@[simp] theorem noFaults_pgSelectItemsF : noFaults.pgSelectItemsF = false := rfl
@[simp] theorem noFaults_pgUpdateStatusF : noFaults.pgUpdateStatusF = false := rfl
@[simp] theorem noFaults_pgInsertItemF (i : Nat) : noFaults.pgInsertItemF i = false := rfl
@[simp] theorem noFaults_pgUpdateStockF (i : Nat) : noFaults.pgUpdateStockF i = false := rfl
@[simp] theorem noFaults_pgRestoreStockF (i : Nat) : noFaults.pgRestoreStockF i = false := rfl
@[simp] theorem noFaults_neo4jAddPurchaseF (i : Nat) : noFaults.neo4jAddPurchaseF i = false := rfl

/-! ### Small state-component lemmas -/

theorem redisExpire_carts (u : String) (t : Int) (s : AppState) :
    (redisExpire u t s).carts = s.carts := by
  unfold redisExpire
  split <;> rfl

theorem redisExpire_pg (u : String) (t : Int) (s : AppState) :
    (redisExpire u t s).pg = s.pg := by
  unfold redisExpire
  split <;> rfl

theorem lookupA_redisHIncrBy_self (u p : String) (q : Int) (s : AppState) :
    lookupA u (redisHIncrBy u p q s).carts = some (hsetIncr p q (cartOf s u)) :=
  lookupA_setA_self u _ s.carts

theorem lookupA_redisHSet_self (u p : String) (q : Int) (s : AppState) :
    lookupA u (redisHSet u p q s).carts = some (setA p q (cartOf s u)) :=
  lookupA_setA_self u _ s.carts

theorem redisExpire_ttls_of_key {u : String} {s : AppState} {c : List (String × Int)}
    (t : Int) (h : lookupA u s.carts = some c) :
    (redisExpire u t s).ttls = setA u t s.ttls := by
  unfold redisExpire
  rw [h]

theorem cartQty_redisHIncrBy_self (u p : String) (q : Int) (s : AppState) :
    cartQty (redisHIncrBy u p q s) u p = cartQty s u p + q := by
  unfold cartQty cartOf
  rw [lookupA_redisHIncrBy_self]
  simp [lookupA_hsetIncr_self, cartOf]

theorem redisHDel_ttls (u p : String) (s : AppState) :
    (redisHDel u p s).ttls = s.ttls ∨ (redisHDel u p s).ttls = removeA u s.ttls := by
  unfold redisHDel
  split
  · exact Or.inl rfl
  · split
    · exact Or.inr rfl
    · exact Or.inl rfl

/-- C1: the claim says stock only decreases through a conditional decrement
(`stock = stock - qty WHERE stock >= qty`) so the resulting stock is always
`≥ 0`.  The code issues an unconditional `UPDATE products SET stock = stock -
%s WHERE id = %s`: starting from stock 5, two stock-checked `add_to_cart`
calls of 3 each pass (5 ≥ 3 both times), and checkout then decrements by 6,
driving the persisted stock to −1. -/
theorem C1_unconditional_decrement_negative_stock :
    add_to_cart noFaults "u1" "P1" 3 sC1 = .ok (true, sC1a)
    ∧ add_to_cart noFaults "u1" "P1" 3 sC1a = .ok (true, sC1b)
    ∧ convert_cart_to_order noFaults "u1" sC1b = .ok (some 1, sC1c)
    ∧ stockOf sC1 "P1" = some 5
    ∧ stockOf sC1c "P1" = some (-1) := by
  refine ⟨by decide, by decide, by decide, by decide, by decide⟩

/-- C2: the claim says that when a line of the cart cannot be satisfied,
`convert_cart_to_order` returns `InsufficientStock` and leaves stock and the
order ledger untouched.  The code performs no stock-sufficiency check at
checkout: with stock 5 and a cart line of 6 it creates the order header and
line, decrements stock to −1 and returns the new order id. -/
theorem C2_checkout_ignores_insufficient_stock :
    convert_cart_to_order noFaults "u1" sC2 = .ok (some 1, sC2after)
    ∧ stockOf sC2 "P1" = some 5
    ∧ stockOf sC2after "P1" = some (-1)
    ∧ orderStatus sC2after 1 = some "pending"
    ∧ itemsOf sC2after 1 = [⟨1, "P1", 6, 10, 60⟩] := by
  refine ⟨by decide, by decide, by decide, by decide, by decide⟩

/-- C3: the claim says the purchase-graph write is dispatched only after the
order transaction has committed and a graph failure never rolls back the
order.  In `OrderService.create_order` the Neo4j writes run inside the open
`get_cursor` transaction: with the graph sink down the same input that
otherwise commits order 1 instead rolls everything back and returns `None` —
no order header, no lines, no stock decrement survive. -/
theorem C3_graph_failure_rolls_back_order :
    OrderService.create_order fGraphDown "2026-10-12" "u1" itemsC3 10 sC3 = (none, sC3)
    ∧ (OrderService.create_order noFaults "2026-10-12" "u1" itemsC3 10 sC3).1 = some 1 := by
  refine ⟨by decide, by decide⟩

/-- C5: the claim says a transition requested out of a terminal status is
rejected with `InvalidTransition` and the persisted status is unchanged.
`update_order_status` issues an unconditional `UPDATE orders SET status`:
the illegal transition `completed → pending` is applied and reported as
success. -/
theorem C5_status_update_unvalidated :
    (update_order_status noFaults 1 "pending" sC5).1 = true
    ∧ orderStatus sC5 1 = some "completed"
    ∧ orderStatus (update_order_status noFaults 1 "pending" sC5).2 1 = some "pending" := by
  refine ⟨by decide, by decide, by decide⟩

/-- C6 counterexample: the claim says `add_to_cart` increments the stored
quantity for every user, product and positive quantity without being
constrained by stock.  With the product's stock at 0, `add_to_cart` of
quantity 1 consults the stock via `_verify_product`, returns `False` and
leaves the cart empty (quantity 0, not 1). -/
theorem C6_add_is_stock_checked :
    add_to_cart noFaults "u1" "P1" 1 sC6 = .ok (false, sC6)
    ∧ stockOf sC6 "P1" = some 0
    ∧ cartQty sC6 "u1" "P1" = 0 := by
  refine ⟨by decide, by decide, by decide⟩

/-- C7 counterexample: the claim says stock and monetary amounts are
persisted as non-negative integers/decimals rather than floating point.  The
schema declares `orders.total_amount`, `order_items.unit_price`,
`order_items.total_price` and `products.price` as `FLOAT`, and the stock
counter is a plain `INT` that order creation drives from 2 to −3 + 2 = −1:
it is not kept non-negative. -/
theorem C7_amounts_float_and_stock_negative :
    (OrderService.create_order noFaults "2026-01-01" "u2" itemsC7 45 sC7).1 = some 1
    ∧ stockOf sC7 "P2" = some 2
    ∧ stockOf sC7after "P2" = some (-1)
    ∧ lookupA "total_amount" orders_schema = some SqlType.floatT
    ∧ lookupA "unit_price" order_items_schema = some SqlType.floatT
    ∧ lookupA "total_price" order_items_schema = some SqlType.floatT
    ∧ lookupA "price" products_schema = some SqlType.floatT
    ∧ lookupA "stock" products_schema = some SqlType.intT := by
  refine ⟨by decide, by decide, by decide, by decide, by decide, by decide, by decide, by decide⟩

/-- C8 counterexample: the claim says every successful mutating cart call
refreshes the TTL to `CART_TTL`.  `remove_from_cart` issues no `EXPIRE`: with
the cart's TTL decayed to 100 seconds, removing an item succeeds and the
remaining TTL is still 100 ≠ `CART_TTL`. -/
theorem C8_remove_does_not_refresh_ttl :
    remove_from_cart noFaults "u1" "P1" sC8 = .ok (true, sC8after)
    ∧ lookupA "u1" sC8after.ttls = some 100
    ∧ CART_TTL = 86400 := by
  refine ⟨by decide, by decide, by decide⟩

/-- C9 counterexample: the claim says `update_cart_item` with `qty > 0`
overwrites the stored quantity with exactly `qty`.  With the product's stock
at 0, the call with quantity 1 fails the stock check, returns `False` and the
stored quantity stays 0, not 1. -/
theorem C9_overwrite_blocked_by_stock_check :
    update_cart_item noFaults "u1" "P9" 1 sC9 = .ok (false, sC9)
    ∧ stockOf sC9 "P9" = some 0
    ∧ cartQty sC9 "u1" "P9" = 0 := by
  refine ⟨by decide, by decide, by decide⟩

/-- C10: every mutating or checkout cart operation returns normally for every
input and every combination of backing-store failures — the `try/except`
blocks catch everything — and under total store failure each operation
reports failure purely through its return value (`False` for the mutators,
`None` for checkout and expiry), leaving the state untouched. -/
theorem C10_cart_operations_never_raise :
    (∀ (f : Faults) (u p : String) (q : Int) (s : AppState),
        isOkB (add_to_cart f u p q s) = true
        ∧ isOkB (update_cart_item f u p q s) = true
        ∧ isOkB (remove_from_cart f u p s) = true
        ∧ isOkB (clear_cart f u s) = true
        ∧ isOkB (convert_cart_to_order f u s) = true
        ∧ isOkB (get_cart_expiry f u s) = true)
    ∧ (∀ (u p : String) (q : Int) (s : AppState),
        add_to_cart allFaults u p q s = .ok (false, s)
        ∧ update_cart_item allFaults u p q s = .ok (false, s)
        ∧ remove_from_cart allFaults u p s = .ok (false, s)
        ∧ clear_cart allFaults u s = .ok (false, s)
        ∧ convert_cart_to_order allFaults u s = .ok (none, s)
        ∧ get_cart_expiry allFaults u s = .ok (none, s)) := by
  constructor
  · intro f u p q s
    refine ⟨?_, ?_, ?_, ?_, ?_, ?_⟩
    · unfold add_to_cart
      split
      · rfl
      · split
        · rfl
        · split <;> rfl
    · unfold update_cart_item remove_from_cart
      split
      · split <;> rfl
      · split
        · rfl
        · split
          · rfl
          · split <;> rfl
    · unfold remove_from_cart
      split <;> rfl
    · unfold clear_cart
      split <;> rfl
    · unfold convert_cart_to_order
      split
      · rfl
      · split
        · rfl
        · split
          · split <;> rfl
          · rfl
    · unfold get_cart_expiry
      split <;> rfl
  · intro u p q s
    refine ⟨rfl, ?_, rfl, rfl, rfl, rfl⟩
    unfold update_cart_item remove_from_cart
    split <;> rfl

/-- Fault-free `_verify_product` is the catalog check itself. -/
theorem verify_noFaults (p : String) (q : Int) (s : AppState) :
    _verify_product noFaults p q s =
      match findProduct s.pg p with
      | none => false
      | some prod => decide (q ≤ prod.stock) := rfl

/-- C6, amended: `add_to_cart` does check stock.  When the product exists
with stock ≥ qty, the call increments the stored quantity (creating the cart
if absent) and resets the TTL to `CART_TTL` without touching PostgreSQL;
when the product is missing or its stock is below qty, it returns `False`
and leaves the state unchanged. -/
theorem C6_amended_add_checks_stock :
    ∀ (s : AppState) (u p : String) (q : Int), 0 < q →
      (∀ prod, findProduct s.pg p = some prod → q ≤ prod.stock →
        ∃ s2, add_to_cart noFaults u p q s = .ok (true, s2)
          ∧ cartQty s2 u p = cartQty s u p + q
          ∧ lookupA u s2.ttls = some CART_TTL
          ∧ s2.pg = s.pg)
      ∧ ((∀ prod, findProduct s.pg p = some prod → prod.stock < q) →
        add_to_cart noFaults u p q s = .ok (false, s)) := by
  intro s u p q _hq
  constructor
  · intro prod hfind hstock
    have hver : _verify_product noFaults p q s = true := by
      rw [verify_noFaults, hfind]
      simpa using hstock
    refine ⟨redisExpire u CART_TTL (redisHIncrBy u p q s), ?_, ?_, ?_, ?_⟩
    · simp [add_to_cart, hver]
    · have hc : cartQty (redisExpire u CART_TTL (redisHIncrBy u p q s)) u p
          = cartQty (redisHIncrBy u p q s) u p := by
        unfold cartQty cartOf
        rw [redisExpire_carts]
      rw [hc, cartQty_redisHIncrBy_self]
    · rw [redisExpire_ttls_of_key CART_TTL (lookupA_redisHIncrBy_self u p q s)]
      exact lookupA_setA_self u CART_TTL s.ttls
    · rw [redisExpire_pg]
      rfl
  · intro hlt
    have hver : _verify_product noFaults p q s = false := by
      rw [verify_noFaults]
      cases hf : findProduct s.pg p with
      | none => rfl
      | some prod =>
        simpa using Int.not_le.mpr (hlt prod hf)
    simp [add_to_cart, hver]

theorem C6_amended_witness :
    (0 : Int) < 2
    ∧ (∃ s2, add_to_cart noFaults "u1" "P1" 2
          ⟨⟨[⟨"P1", "Pot", 10, 5⟩], [], [], 1⟩, [], [], []⟩ = .ok (true, s2)
        ∧ cartQty s2 "u1" "P1"
            = cartQty (⟨⟨[⟨"P1", "Pot", 10, 5⟩], [], [], 1⟩, [], [], []⟩ : AppState) "u1" "P1" + 2
        ∧ lookupA "u1" s2.ttls = some CART_TTL
        ∧ s2.pg = (⟨⟨[⟨"P1", "Pot", 10, 5⟩], [], [], 1⟩, [], [], []⟩ : AppState).pg) :=
  ⟨by decide,
   (C6_amended_add_checks_stock ⟨⟨[⟨"P1", "Pot", 10, 5⟩], [], [], 1⟩, [], [], []⟩
      "u1" "P1" 2 (by decide)).1 ⟨"P1", "Pot", 10, 5⟩ (by decide) (by decide)⟩

/-- C8, amended: only `add_to_cart` and `update_cart_item` with positive
quantity refresh the TTL to `CART_TTL` on success; `remove_from_cart` never
issues an `EXPIRE` (it leaves the TTL entry as it was, or deletes it together
with the cart key when the last item is removed), and `clear_cart` deletes
the cart and its TTL outright. -/
theorem C8_amended_ttl_refresh :
    ∀ (s : AppState) (u p : String) (q : Int),
      (∀ prod, findProduct s.pg p = some prod → q ≤ prod.stock →
        ∃ s2, add_to_cart noFaults u p q s = .ok (true, s2)
          ∧ lookupA u s2.ttls = some CART_TTL)
      ∧ (0 < q → ∀ prod, findProduct s.pg p = some prod → q ≤ prod.stock →
        ∃ s2, update_cart_item noFaults u p q s = .ok (true, s2)
          ∧ lookupA u s2.ttls = some CART_TTL)
      ∧ (∃ s2, remove_from_cart noFaults u p s = .ok (true, s2)
          ∧ (s2.ttls = s.ttls ∨ s2.ttls = removeA u s.ttls))
      ∧ clear_cart noFaults u s = .ok (true, redisDelete u s)
      ∧ (redisDelete u s).ttls = removeA u s.ttls := by
  intro s u p q
  refine ⟨?_, ?_, ?_, rfl, rfl⟩
  · intro prod hfind hstock
    have hver : _verify_product noFaults p q s = true := by
      rw [verify_noFaults, hfind]
      simpa using hstock
    refine ⟨redisExpire u CART_TTL (redisHIncrBy u p q s), ?_, ?_⟩
    · simp [add_to_cart, hver]
    · rw [redisExpire_ttls_of_key CART_TTL (lookupA_redisHIncrBy_self u p q s)]
      exact lookupA_setA_self u CART_TTL s.ttls
  · intro hq prod hfind hstock
    have hver : _verify_product noFaults p q s = true := by
      rw [verify_noFaults, hfind]
      simpa using hstock
    refine ⟨redisExpire u CART_TTL (redisHSet u p q s), ?_, ?_⟩
    · unfold update_cart_item
      rw [if_neg (by simpa using Int.not_le.mpr hq)]
      simp [hver]
    · rw [redisExpire_ttls_of_key CART_TTL (lookupA_redisHSet_self u p q s)]
      exact lookupA_setA_self u CART_TTL s.ttls
  · exact ⟨redisHDel u p s, rfl, redisHDel_ttls u p s⟩

theorem C8_amended_witness :
    (0 : Int) < 2
    ∧ (∃ s2, update_cart_item noFaults "u1" "P1" 2
          ⟨⟨[⟨"P1", "Pot", 10, 5⟩], [], [], 1⟩, [("u1", [("P1", 1)])], [("u1", 100)], []⟩
          = .ok (true, s2)
        ∧ lookupA "u1" s2.ttls = some CART_TTL) :=
  ⟨by decide,
   (C8_amended_ttl_refresh
      ⟨⟨[⟨"P1", "Pot", 10, 5⟩], [], [], 1⟩, [("u1", [("P1", 1)])], [("u1", 100)], []⟩
      "u1" "P1" 2).2.1 (by decide) ⟨"P1", "Pot", 10, 5⟩ (by decide) (by decide)⟩

/-- C9, amended: `update_cart_item` with `qty ≤ 0` is literally
`remove_from_cart` (for every fault configuration and state), and with
`qty > 0` it overwrites the stored quantity with exactly `qty` and refreshes
the TTL only when the product exists with stock ≥ qty; otherwise it returns
`False` and leaves the state unchanged. -/
theorem C9_amended_set_quantity :
    (∀ (f : Faults) (s : AppState) (u p : String) (q : Int), q ≤ 0 →
        update_cart_item f u p q s = remove_from_cart f u p s)
    ∧ (∀ (s : AppState) (u p : String) (q : Int), 0 < q →
        (∀ prod, findProduct s.pg p = some prod → q ≤ prod.stock →
          ∃ s2, update_cart_item noFaults u p q s = .ok (true, s2)
            ∧ cartQty s2 u p = q
            ∧ lookupA u s2.ttls = some CART_TTL
            ∧ s2.pg = s.pg)
        ∧ ((∀ prod, findProduct s.pg p = some prod → prod.stock < q) →
          update_cart_item noFaults u p q s = .ok (false, s))) := by
  constructor
  · intro f s u p q hq
    unfold update_cart_item
    rw [if_pos hq]
  · intro s u p q hq
    constructor
    · intro prod hfind hstock
      have hver : _verify_product noFaults p q s = true := by
        rw [verify_noFaults, hfind]
        simpa using hstock
      refine ⟨redisExpire u CART_TTL (redisHSet u p q s), ?_, ?_, ?_, ?_⟩
      · unfold update_cart_item
        rw [if_neg (by simpa using Int.not_le.mpr hq)]
        simp [hver]
      · have hc : cartQty (redisExpire u CART_TTL (redisHSet u p q s)) u p
            = cartQty (redisHSet u p q s) u p := by
          unfold cartQty cartOf
          rw [redisExpire_carts]
        rw [hc]
        unfold cartQty cartOf
        rw [lookupA_redisHSet_self]
        simp [lookupA_setA_self]
      · rw [redisExpire_ttls_of_key CART_TTL (lookupA_redisHSet_self u p q s)]
        exact lookupA_setA_self u CART_TTL s.ttls
      · rw [redisExpire_pg]
        rfl
    · intro hlt
      have hver : _verify_product noFaults p q s = false := by
        rw [verify_noFaults]
        cases hf : findProduct s.pg p with
        | none => rfl
        | some prod =>
          simpa using Int.not_le.mpr (hlt prod hf)
      unfold update_cart_item
      rw [if_neg (by simpa using Int.not_le.mpr hq)]
      simp [hver]

theorem C9_amended_witness :
    (0 : Int) < 3
    ∧ (∃ s2, update_cart_item noFaults "u9" "P9"
          3 ⟨⟨[⟨"P9", "Bowl", 8, 7⟩], [], [], 1⟩, [("u9", [("P9", 1)])], [("u9", 50)], []⟩
          = .ok (true, s2)
        ∧ cartQty s2 "u9" "P9" = 3
        ∧ lookupA "u9" s2.ttls = some CART_TTL
        ∧ s2.pg = (⟨⟨[⟨"P9", "Bowl", 8, 7⟩], [], [], 1⟩,
            [("u9", [("P9", 1)])], [("u9", 50)], []⟩ : AppState).pg) :=
  ⟨by decide,
   ((C9_amended_set_quantity.2
      ⟨⟨[⟨"P9", "Bowl", 8, 7⟩], [], [], 1⟩, [("u9", [("P9", 1)])], [("u9", 50)], []⟩
      "u9" "P9" 3 (by decide)).1 ⟨"P9", "Bowl", 8, 7⟩ (by decide) (by decide))⟩

/-! ### Lemmas for cancellation (C4) -/

theorem find?_map_of_pres {α : Type} {p : α → Bool} {g : α → α}
    (hp : ∀ a, p (g a) = p a) (l : List α) :
    (l.map g).find? p = (l.find? p).map g := by
  rw [List.find?_map]
  have he : (p ∘ g) = p := funext hp
  rw [he]

theorem pstockOf_incStock (pid2 pid : String) (q : Int) (pg : PgState) :
    pstockOf (incStock pid2 q pg) pid
      = (pstockOf pg pid).map (fun st => if pid2 = pid then st + q else st) := by
  have hp : ∀ a : Product,
      ((fun p0 : Product => p0.id == pid)
        ((fun p0 : Product => if p0.id == pid2 then { p0 with stock := p0.stock + q } else p0) a))
        = ((fun p0 : Product => p0.id == pid) a) := by
    intro a
    by_cases h : (a.id == pid2) = true <;> simp [h]
  unfold pstockOf incStock findProduct
  rw [find?_map_of_pres hp]
  cases hf : pg.products.find? (fun p0 => p0.id == pid) with
  | none => rfl
  | some p0 =>
    have hid : p0.id = pid := by simpa using List.find?_some hf
    by_cases hpp : pid2 = pid
    · subst hpp
      simp [hid]
    · have h2 : ¬ p0.id = pid2 := fun he => hpp (he.symm.trans hid)
      simp [h2, hpp]

theorem restoreLoop_noFaults :
    ∀ (l : List (Nat × OrderItem)) (pg : PgState),
      ∃ pg2, restoreLoop noFaults l pg = .ok pg2
        ∧ pg2.orders = pg.orders
        ∧ pg2.order_items = pg.order_items
        ∧ pg2.next_order_id = pg.next_order_id
        ∧ ∀ pid, pstockOf pg2 pid
            = (pstockOf pg pid).map (fun st => st + restoreQty (l.map Prod.snd) pid) := by
  intro l
  induction l with
  | nil =>
    intro pg
    refine ⟨pg, rfl, rfl, rfl, rfl, ?_⟩
    intro pid
    cases pstockOf pg pid <;> simp [restoreQty]
  | cons hd t ih =>
    intro pg
    obtain ⟨i, it⟩ := hd
    obtain ⟨pg2, hrun, ho, hoi, hn, hs⟩ := ih (incStock it.product_id it.quantity pg)
    refine ⟨pg2, ?_, ?_, ?_, ?_, ?_⟩
    · simpa [restoreLoop] using hrun
    · rw [ho]; rfl
    · rw [hoi]; rfl
    · rw [hn]; rfl
    · intro pid
      rw [hs pid, pstockOf_incStock]
      cases hpp : pstockOf pg pid with
      | none => rfl
      | some st =>
        by_cases hm : it.product_id = pid
        · simp [restoreQty, List.filter_cons, hm, Option.map]
          omega
        · simp [restoreQty, List.filter_cons, hm, Option.map]


theorem find?_id_unique {l : List Order} (hids : (l.map Order.id).Nodup)
    {o : Order} (hmem : o ∈ l) {oid : Nat} (hid : o.id = oid) :
    l.find? (fun o2 => o2.id == oid) = some o := by
  cases hf : l.find? (fun o2 => o2.id == oid) with
  | none =>
    exfalso
    have h := List.find?_eq_none.mp hf o hmem
    simp [hid] at h
  | some o2 =>
    have hp2 : o2.id = oid := by simpa using List.find?_some hf
    have hmem2 := List.mem_of_find?_eq_some hf
    have heq : o2 = o := List.inj_on_of_nodup_map hids hmem2 hmem (by rw [hp2, hid])
    rw [heq]

/-- C4: under the orders PRIMARY KEY invariant (pairwise-distinct order ids),
`cancel_order` succeeds iff an order with that id belongs to the user and is
`pending` or `processing`.  On success — one atomic state transition — the
stock of every product rises by exactly the summed quantities of the order's
lines (each line restored exactly once), the order's status becomes
`cancelled`, and order lines, carts, TTLs and the purchase graph are
untouched.  In every other case the call returns `False` and the state is
exactly unchanged: no stock change, no status change. -/
theorem C4_cancel_guarded (s : AppState) (oid : Nat) (uid : String)
    (hids : (s.pg.orders.map Order.id).Nodup) :
    (¬ cancellable s oid uid → cancel_order noFaults oid uid s = (false, s))
    ∧ (cancellable s oid uid →
        ∃ s2, cancel_order noFaults oid uid s = (true, s2)
          ∧ (∀ pid, stockOf s2 pid
              = (stockOf s pid).map (fun st => st + restoreQty (itemsOf s oid) pid))
          ∧ orderStatus s2 oid = some "cancelled"
          ∧ s2.pg.order_items = s.pg.order_items
          ∧ s2.carts = s.carts ∧ s2.ttls = s.ttls ∧ s2.graph = s.graph) := by
  have hred : cancel_order noFaults oid uid s =
      (match s.pg.orders.find? (fun o => o.id == oid && o.user_id == uid) with
       | none => (false, s)
       | some o =>
         if ¬ (o.status = "pending" ∨ o.status = "processing") then (false, s)
         else
           match restoreLoop noFaults (itemsOf s oid).enum s.pg with
           | .error _ => (false, s)
           | .ok pg1 => (true, { s with pg := setOrderStatus oid "cancelled" pg1 })) := rfl
  rw [hred]
  cases hf : s.pg.orders.find? (fun o => o.id == oid && o.user_id == uid) with
  | none =>
    constructor
    · intro _
      rfl
    · intro hc
      exfalso
      obtain ⟨o, hmem, hid, huid, hst⟩ := hc
      have h := List.find?_eq_none.mp hf o hmem
      simp [hid, huid] at h
  | some o =>
    have hpo := List.find?_some hf
    have hmem := List.mem_of_find?_eq_some hf
    simp only [Bool.and_eq_true, beq_iff_eq] at hpo
    have hid : o.id = oid := hpo.1
    have huid : o.user_id = uid := hpo.2
    dsimp only
    by_cases hst : o.status = "pending" ∨ o.status = "processing"
    · constructor
      · intro hnc
        exact absurd ⟨o, hmem, hid, huid, hst⟩ hnc
      · intro _
        obtain ⟨pg2, hrun, ho, hoi, hn, hs⟩ := restoreLoop_noFaults (itemsOf s oid).enum s.pg
        rw [if_neg (not_not_intro hst), hrun]
        refine ⟨{ s with pg := setOrderStatus oid "cancelled" pg2 }, rfl, ?_, ?_, ?_, rfl, rfl, rfl⟩
        · intro pid
          have hps : stockOf { s with pg := setOrderStatus oid "cancelled" pg2 } pid
              = pstockOf pg2 pid := rfl
          rw [hps, hs pid, List.enum_map_snd]
          rfl
        · show orderStatus { s with pg := setOrderStatus oid "cancelled" pg2 } oid
            = some "cancelled"
          have hpres : ∀ a : Order,
              ((fun o2 : Order => o2.id == oid)
                ((fun o2 : Order => if o2.id == oid then { o2 with status := "cancelled" } else o2) a))
                = ((fun o2 : Order => o2.id == oid) a) := by
            intro a
            by_cases h : (a.id == oid) = true <;> simp [h]
          unfold orderStatus setOrderStatus
          rw [find?_map_of_pres hpres, ho, find?_id_unique hids hmem hid]
          simp [hid]
        · show (setOrderStatus oid "cancelled" pg2).order_items = s.pg.order_items
          rw [← hoi]
          rfl
    · constructor
      · intro _
        rw [if_pos hst]
      · intro hc
        exfalso
        obtain ⟨o2, hmem2, hid2, huid2, hst2⟩ := hc
        have heq : o2 = o := List.inj_on_of_nodup_map hids hmem2 hmem (by rw [hid2, hid])
        rw [heq] at hst2
        exact hst hst2

theorem C4_cancel_witness :
    (sW4.pg.orders.map Order.id).Nodup
    ∧ (∃ s2, cancel_order noFaults 1 "u1" sW4 = (true, s2)
        ∧ (∀ pid, stockOf s2 pid
            = (stockOf sW4 pid).map (fun st => st + restoreQty (itemsOf sW4 1) pid))
        ∧ orderStatus s2 1 = some "cancelled"
        ∧ s2.pg.order_items = sW4.pg.order_items
        ∧ s2.carts = sW4.carts ∧ s2.ttls = sW4.ttls ∧ s2.graph = sW4.graph) :=
  ⟨by decide,
   (C4_cancel_guarded sW4 1 "u1" (by decide)).2
     ⟨⟨1, "u1", 20, "pending"⟩, by decide, rfl, rfl, Or.inl rfl⟩⟩

/-! ### Lemmas for order totals (C7) -/

theorem get_cart_total_spec (u : String) (s : AppState) (ct : CartTotal) (s1 : AppState)
    (h : get_cart_total noFaults u s = .ok (ct, s1)) :
    s1 = s ∧ ct.total = (ct.items.map CartItem.total).sum := by
  unfold get_cart_total get_cart at h
  simp only [noFaults_redisHGetAllF, Bool.false_eq_true, if_false] at h
  by_cases hc : cartOf s u = []
  · rw [if_pos hc] at h
    simp only [Except.ok.injEq, Prod.mk.injEq] at h
    refine ⟨h.2.symm, ?_⟩
    rw [← h.1]
    simp
  · rw [if_neg hc] at h
    simp only [Except.ok.injEq, Prod.mk.injEq] at h
    refine ⟨h.2.symm, ?_⟩
    rw [← h.1]

theorem createOrderLoop_noFaults (oid : Nat) :
    ∀ (l : List (Nat × CartItem)) (pg : PgState),
      ∃ pg2, createOrderLoop noFaults oid l pg = .ok pg2
        ∧ pg2.orders = pg.orders
        ∧ pg2.next_order_id = pg.next_order_id
        ∧ pg2.order_items = pg.order_items
            ++ (l.map Prod.snd).map
                (fun it => (⟨oid, it.product_id, it.quantity, it.price, it.total⟩ : OrderItem)) := by
  intro l
  induction l with
  | nil =>
    intro pg
    exact ⟨pg, rfl, rfl, rfl, by simp⟩
  | cons hd t ih =>
    intro pg
    obtain ⟨i, it⟩ := hd
    obtain ⟨pg2, hrun, ho, hn, hoi⟩ :=
      ih (decStock it.product_id it.quantity (insertOrderItem oid it pg))
    refine ⟨pg2, ?_, ?_, ?_, ?_⟩
    · simpa [createOrderLoop] using hrun
    · rw [ho]; rfl
    · rw [hn]; rfl
    · rw [hoi]
      simp [insertOrderItem, decStock]

theorem _create_order_noFaults (u : String) (ct : CartTotal) (s : AppState) :
    ∃ s3, _create_order noFaults u ct s = (some s.pg.next_order_id, s3)
      ∧ s3.pg.orders = s.pg.orders ++ [⟨s.pg.next_order_id, u, ct.total, "pending"⟩]
      ∧ s3.pg.order_items = s.pg.order_items
          ++ ct.items.map (fun it =>
              (⟨s.pg.next_order_id, it.product_id, it.quantity, it.price, it.total⟩ : OrderItem))
      ∧ s3.carts = s.carts ∧ s3.ttls = s.ttls ∧ s3.graph = s.graph := by
  obtain ⟨pg2, hrun, ho, hn, hoi⟩ :=
    createOrderLoop_noFaults s.pg.next_order_id ct.items.enum (insertOrder u ct.total s.pg)
  refine ⟨{ s with pg := pg2 }, ?_, ?_, ?_, rfl, rfl, rfl⟩
  · unfold _create_order
    simp only [noFaults_pgInsertOrderF, Bool.false_eq_true, if_false]
    rw [hrun]
  · rw [ho]
    rfl
  · rw [hoi, List.enum_map_snd]
    rfl

theorem find?_total_setOrderStatus (pg : PgState) (oid2 : Nat) (st2 : String) (oid : Nat) :
    ((setOrderStatus oid2 st2 pg).orders.find? (fun o => o.id == oid)).map Order.total_amount
      = (pg.orders.find? (fun o => o.id == oid)).map Order.total_amount := by
  have hpres : ∀ a : Order,
      ((fun o2 : Order => o2.id == oid)
        ((fun o2 : Order => if o2.id == oid2 then { o2 with status := st2 } else o2) a))
        = ((fun o2 : Order => o2.id == oid) a) := by
    intro a
    by_cases h : (a.id == oid2) = true <;> simp [h]
  unfold setOrderStatus
  rw [find?_map_of_pres hpres]
  cases pg.orders.find? (fun o => o.id == oid) with
  | none => rfl
  | some o =>
    dsimp only [Option.map]
    split <;> rfl

theorem update_preserves_totals (oid2 : Nat) (st2 : String) (s : AppState) (oid : Nat) :
    orderTotal (update_order_status noFaults oid2 st2 s).2 oid = orderTotal s oid
    ∧ lineSum (update_order_status noFaults oid2 st2 s).2 oid = lineSum s oid := by
  have hred : (update_order_status noFaults oid2 st2 s).2
      = { s with pg := setOrderStatus oid2 st2 s.pg } := rfl
  rw [hred]
  exact ⟨find?_total_setOrderStatus s.pg oid2 st2 oid, rfl⟩

theorem cancel_preserves_totals (oid2 : Nat) (u2 : String) (s : AppState) (oid : Nat) :
    orderTotal (cancel_order noFaults oid2 u2 s).2 oid = orderTotal s oid
    ∧ lineSum (cancel_order noFaults oid2 u2 s).2 oid = lineSum s oid := by
  have hred : cancel_order noFaults oid2 u2 s =
      (match s.pg.orders.find? (fun o => o.id == oid2 && o.user_id == u2) with
       | none => (false, s)
       | some o =>
         if ¬ (o.status = "pending" ∨ o.status = "processing") then (false, s)
         else
           match restoreLoop noFaults (itemsOf s oid2).enum s.pg with
           | .error _ => (false, s)
           | .ok pg1 => (true, { s with pg := setOrderStatus oid2 "cancelled" pg1 })) := rfl
  rw [hred]
  cases hf : s.pg.orders.find? (fun o => o.id == oid2 && o.user_id == u2) with
  | none => exact ⟨rfl, rfl⟩
  | some o =>
    dsimp only
    by_cases hst : o.status = "pending" ∨ o.status = "processing"
    · obtain ⟨pg2, hrun, ho, hoi, hn, hs⟩ := restoreLoop_noFaults (itemsOf s oid2).enum s.pg
      rw [if_neg (not_not_intro hst), hrun]
      constructor
      · show orderTotal { s with pg := setOrderStatus oid2 "cancelled" pg2 } oid = orderTotal s oid
        unfold orderTotal
        have h1 := find?_total_setOrderStatus pg2 oid2 "cancelled" oid
        rw [show ({ s with pg := setOrderStatus oid2 "cancelled" pg2 } : AppState).pg.orders
              = (setOrderStatus oid2 "cancelled" pg2).orders from rfl, h1, ho]
      · show lineSum { s with pg := setOrderStatus oid2 "cancelled" pg2 } oid = lineSum s oid
        unfold lineSum itemsOf
        rw [show ({ s with pg := setOrderStatus oid2 "cancelled" pg2 } : AppState).pg.order_items
              = pg2.order_items from rfl, hoi]
    · rw [if_pos hst]
      exact ⟨rfl, rfl⟩


/-- C7, amended: for every order created through checkout (on a `SERIAL`
well-formed database), the persisted order total equals the sum of its line
totals at creation, and the equality is preserved by every subsequent status
operation (`update_order_status`, `cancel_order`), which never touch the
amounts.  The "persisted as non-negative integers/decimals" half of the
original claim is false: the schema stores the amounts as `FLOAT` and the
stock as a plain `INT` that checkout can drive negative (see the
counterexample). -/
theorem C7_amended_total_eq_sum (s : AppState) (u : String) (hser : serialOk s.pg) :
    ∀ (oid : Nat) (s2 : AppState), convert_cart_to_order noFaults u s = .ok (some oid, s2) →
      orderTotal s2 oid = some (lineSum s2 oid)
      ∧ (∀ (oid2 : Nat) (st2 : String),
          orderTotal (update_order_status noFaults oid2 st2 s2).2 oid
            = some (lineSum (update_order_status noFaults oid2 st2 s2).2 oid))
      ∧ (∀ (oid2 : Nat) (u2 : String),
          orderTotal (cancel_order noFaults oid2 u2 s2).2 oid
            = some (lineSum (cancel_order noFaults oid2 u2 s2).2 oid)) := by
  intro oid s2 hconv
  have hmain : orderTotal s2 oid = some (lineSum s2 oid) := by
    unfold convert_cart_to_order at hconv
    cases hg : get_cart_total noFaults u s with
    | error e =>
      rw [hg] at hconv
      simp at hconv
    | ok p =>
      obtain ⟨ct, s1⟩ := p
      obtain ⟨hs1, htot⟩ := get_cart_total_spec u s ct s1 hg
      rw [hg] at hconv
      dsimp only at hconv
      rw [hs1] at hconv
      by_cases hi : ct.items = []
      · rw [if_pos hi] at hconv
        simp at hconv
      · rw [if_neg hi] at hconv
        obtain ⟨s3, hco, hords, hitems, hc, ht, hgr⟩ := _create_order_noFaults u ct s
        rw [hco] at hconv
        dsimp only at hconv
        have hcc : clear_cart noFaults u s3 = .ok (true, redisDelete u s3) := rfl
        rw [hcc] at hconv
        dsimp only at hconv
        simp only [Except.ok.injEq, Prod.mk.injEq, Option.some.injEq] at hconv
        obtain ⟨hoid, hs2⟩ := hconv
        subst hs2
        subst hoid
        unfold orderTotal lineSum itemsOf
        simp only [redisDelete]
        rw [hords, hitems]
        have hnone : s.pg.orders.find? (fun o => o.id == s.pg.next_order_id) = none := by
          rw [List.find?_eq_none]
          intro o hmem
          have hlt := hser.1 o hmem
          simp only [beq_iff_eq]
          omega
        have hfil : s.pg.order_items.filter (fun it => it.order_id == s.pg.next_order_id)
            = [] := by
          rw [List.filter_eq_nil_iff]
          intro it hmem
          have hlt := hser.2 it hmem
          simp only [beq_iff_eq]
          omega
        have hkeep : (ct.items.map (fun it =>
              (⟨s.pg.next_order_id, it.product_id, it.quantity, it.price, it.total⟩ : OrderItem))).filter
                (fun it => it.order_id == s.pg.next_order_id)
            = ct.items.map (fun it =>
              (⟨s.pg.next_order_id, it.product_id, it.quantity, it.price, it.total⟩ : OrderItem)) := by
          rw [List.filter_eq_self]
          intro a hmem
          obtain ⟨it, hit, hae⟩ := List.mem_map.mp hmem
          rw [← hae]
          simp
        rw [List.find?_append, hnone, List.filter_append, hfil, hkeep]
        simp [List.map_map, htot, List.find?]
        rfl
  refine ⟨hmain, ?_, ?_⟩
  · intro oid2 st2
    obtain ⟨h1, h2⟩ := update_preserves_totals oid2 st2 s2 oid
    rw [h1, h2]
    exact hmain
  · intro oid2 u2
    obtain ⟨h1, h2⟩ := cancel_preserves_totals oid2 u2 s2 oid
    rw [h1, h2]
    exact hmain

theorem C7_amended_witness :
    serialOk sW7.pg
    ∧ (orderTotal sW7after 1 = some (lineSum sW7after 1)
      ∧ (∀ (oid2 : Nat) (st2 : String),
          orderTotal (update_order_status noFaults oid2 st2 sW7after).2 1
            = some (lineSum (update_order_status noFaults oid2 st2 sW7after).2 1))
      ∧ (∀ (oid2 : Nat) (u2 : String),
          orderTotal (cancel_order noFaults oid2 u2 sW7after).2 1
            = some (lineSum (cancel_order noFaults oid2 u2 sW7after).2 1))) :=
  ⟨⟨by decide, by decide⟩,
   C7_amended_total_eq_sum sW7 "u7" ⟨by decide, by decide⟩ 1 sW7after (by decide)⟩

end ClaimTheorems

end ArtisanMarket
